import Mathlib

/-!
Shallow embedding of the WASM BIOS command interpreter:
src/core/bios/src/commands/{execute,echo,cat,rm,ls}.cpp and
src/core/bios/src/bios.cpp.

C++ std::string values are modelled as lists of characters; an
std::string::npos result is modelled as none.  The host (emscripten
MEMFS) filesystem, an external collaborator of the core, is modelled as
finite association lists of files (path, content) and directories
(path, entry names).  A C++ exception escaping a function is modelled
by the function returning none.
-/

/-- Byte strings of the C++ code, modelled as lists of characters. -/
abbrev Str := List Char

/-- Models std::string::find(char): index of the first occurrence of the
character, none for npos. -/
def strFind : Str → Char → Option Nat
  | [], _ => none
  | c :: rest, t => if c = t then some 0 else (strFind rest t).map (· + 1)

/-- Models std::string::find_first_not_of(set): first index whose character
is not in the set, none for npos. -/
def find_first_not_of : Str → Str → Option Nat
  | [], _ => none
  | c :: rest, set => if c ∈ set then (find_first_not_of rest set).map (· + 1) else some 0

/-- Models std::string::find_last_not_of(set): last index whose character
is not in the set, none for npos. -/
def find_last_not_of : Str → Str → Option Nat
  | [], _ => none
  | c :: rest, set =>
    match find_last_not_of rest set with
    | some i => some (i + 1)
    | none => if c ∈ set then none else some 0

/-- Association-list lookup with decidable key equality; models both the
std::unordered_map::find of the command registry and host path lookup. -/
def lookupA {β : Type _} : List (Str × β) → Str → Option β
  | [], _ => none
  | (k, v) :: rest, key => if k = key then some v else lookupA rest key

/-- Model of the host (emscripten MEMFS) filesystem state: files with their
contents, and directories with the names readdir yields for them. -/
structure FS where
  files : List (Str × Str)
  dirs : List (Str × List Str)
deriving DecidableEq, Repr

namespace FS

/-- Host model: a path names a directory iff it is listed in dirs. -/
def isDirB (fs : FS) (p : Str) : Bool := (lookupA fs.dirs p).isSome

/-- Host model of opening a path with std::ofstream and writing content:
the open fails when the path is a directory, otherwise the file is
created or truncated and the content is stored. -/
def writeFile (fs : FS) (p c : Str) : Option FS :=
  if fs.isDirB p then none
  else some { fs with files := (p, c) :: fs.files.filter (fun q => decide (q.1 ≠ p)) }

/-- Host model of an std::ifstream open followed by a whole-file read:
succeeds with the content iff the file exists. -/
def readFile (fs : FS) (p : Str) : Option Str := lookupA fs.files p

/-- Host model of remove() on a path: succeeds iff a file exists there,
deleting it. -/
def removeFile (fs : FS) (p : Str) : Option FS :=
  if (lookupA fs.files p).isSome then
    some { fs with files := fs.files.filter (fun q => decide (q.1 ≠ p)) }
  else none

/-- Host model of stat(): some true for a directory, some false for a
plain file, none (stat failure) when the path does not exist. -/
def stat (fs : FS) (p : Str) : Option Bool :=
  if (lookupA fs.dirs p).isSome then some true
  else if (lookupA fs.files p).isSome then some false
  else none

end FS

/-- CommandResult of commands.hpp: an int code and a textual output. -/
structure CommandResult where
  code : Int
  output : Str
deriving DecidableEq, Repr

namespace commands

/-- CommandFunction of commands.hpp, extended with the host filesystem
state; a none result models a thrown C++ exception escaping the handler. -/
abbrev CommandFunction := Str → FS → Option (CommandResult × FS)

/-- The whitespace set " \t" used by the trimming in echo.cpp. -/
def wsSet : Str := [' ', '\t']

/-- commands/echo.cpp echo: with a first occurrence of the redirection
character, the text before it is right-trimmed and written to the
left-trimmed filename after it; without one, the argument is echoed
back unchanged.  When find_first_not_of yields npos, substr(npos)
raises std::out_of_range (modelled as none); when find_last_not_of
yields npos, npos + 1 wraps to 0 in size_t, so substr(0, 0) yields the
empty content. -/
def echo : CommandFunction := fun args fs =>
  match strFind args '>' with
  | some gt_pos =>
    let content := args.take gt_pos
    let filename := args.drop (gt_pos + 1)
    let content2 := content.take (match find_last_not_of content wsSet with
      | some i => i + 1
      | none => 0)
    match find_first_not_of filename wsSet with
    | none => none
    | some i =>
      let filename2 := filename.drop i
      match fs.writeFile filename2 content2 with
      | none => some ({ code := -1, output := "Failed to open file for writing".data }, fs)
      | some fs2 => some ({ code := 0, output := [] }, fs2)
  | none => some ({ code := 0, output := args }, fs)

/-- commands/cat.cpp cat: usage error on an empty argument, otherwise the
whole file is read; the read-after-open failure branch of the source is
unreachable in the host model, where an opened file is always readable. -/
def cat : CommandFunction := fun args fs =>
  if args = [] then some ({ code := -1, output := "Usage: cat <filename>".data }, fs)
  else
    match fs.readFile args with
    | none => some ({ code := -1, output := "Failed to open file".data }, fs)
    | some content => some ({ code := 0, output := content }, fs)

/-- commands/rm.cpp rm: usage error on an empty argument, otherwise
remove() decides between success with empty output and a diagnostic. -/
def rm : CommandFunction := fun args fs =>
  if args = [] then some ({ code := -1, output := "Usage: rm <filename>".data }, fs)
  else
    match fs.removeFile args with
    | some fs2 => some ({ code := 0, output := [] }, fs2)
    | none => some ({ code := -1, output := "Failed to delete file".data }, fs)

/-- Loop body of commands/ls.cpp: the full path is the directory path,
a slash if the path does not already end in one, and the entry name; the
stat result chooses the type marker, a stat failure yields the bare
name; every line ends with a newline. -/
def ls_entry_line (fs : FS) (path name : Str) : Str :=
  let full_path := (if path.getLast? = some '/' then path else path ++ ['/']) ++ name
  match fs.stat full_path with
  | some true => 'd' :: ' ' :: (name ++ ['\n'])
  | some false => '-' :: ' ' :: (name ++ ['\n'])
  | none => name ++ ['\n']

/-- commands/ls.cpp ls: the path defaults to the root when the argument
is empty; opendir failure yields the diagnostic; otherwise the output
accumulates one line per readdir entry. -/
def ls : CommandFunction := fun args fs =>
  let path := if args = [] then "/".data else args
  match lookupA fs.dirs path with
  | none => some ({ code := -1, output := "Failed to open directory: ".data ++ path }, fs)
  | some entries =>
    some ({ code := 0,
            output := entries.foldl (fun acc name => acc ++ ls_entry_line fs path name) [] }, fs)

/-- Verb/argument split of commands/execute.cpp: the text before the
first space is the verb and the text after it the argument; without a
space the whole line is the verb and the argument is empty. -/
def split_verb (command : Str) : Str × Str :=
  match strFind command ' ' with
  | some space_pos => (command.take space_pos, command.drop (space_pos + 1))
  | none => (command, [])

/-- The command_registry of commands/execute.cpp. -/
def command_registry : List (Str × CommandFunction) :=
  [("ls".data, ls), ("cat".data, cat), ("echo".data, echo), ("rm".data, rm)]

/-- commands/execute.cpp execute_command: split the line, look the verb
up in the registry, dispatch or report an unknown command. -/
def execute_command (command : Str) (fs : FS) : Option (CommandResult × FS) :=
  match lookupA command_registry (split_verb command).1 with
  | none => some ({ code := -1, output := "Unknown command".data }, fs)
  | some handler => handler (split_verb command).2 fs

end commands

/-- State of the bios.cpp boundary: the host filesystem together with the
static int last_status. -/
structure BiosState where
  fs : FS
  last_status : Int
deriving DecidableEq, Repr

/-- bios.cpp: the startup value of the static int last_status. -/
def init_last_status : Int := 0

/-- The boundary state at startup over a given host filesystem. -/
def BiosState.init (fs : FS) : BiosState := { fs := fs, last_status := init_last_status }

/-- bios.cpp execute: a none command models a NULL pointer; a null or
empty command is rejected with -1 before any dispatch; otherwise the
dispatch result's code is recorded in last_status and returned.  A none
result models an exception escaping the dispatch. -/
def execute : Option Str → BiosState → Option (Int × BiosState)
  | some cmd, s =>
    if cmd = [] then some (-1, { s with last_status := -1 })
    else
      match commands.execute_command cmd s.fs with
      | none => none
      | some (r, fs2) => some (r.code, { fs := fs2, last_status := r.code })
  | none, s => some (-1, { s with last_status := -1 })

/-- bios.cpp execute_with_output under its non-null out_len
precondition (with a null out_len the source returns immediately,
reaching no dispatch and updating nothing).  The returned buffer is
modelled as its bytes including the trailing NUL byte written after the
memcpy; alloc_ok models whether the malloc call succeeds.  The result
triple is (buffer or null, the value stored in out_len, the new state);
a none result models an exception escaping the dispatch. -/
def execute_with_output : Option Str → Bool → BiosState → Option (Option Str × Nat × BiosState)
  | none, _, s => some (none, 0, { s with last_status := -1 })
  | some cmd, alloc_ok, s =>
    if cmd = [] then some (none, 0, { s with last_status := -1 })
    else
      match commands.execute_command cmd s.fs with
      | none => none
      | some (r, fs2) =>
        let s2 : BiosState := { fs := fs2, last_status := r.code }
        if r.output = [] then some (none, 0, s2)
        else if alloc_ok then
          some (some (r.output ++ [Char.ofNat 0]), r.output.length, s2)
        else some (none, 0, s2)

/-- bios.cpp get_last_status: reads the static status, no side effect. -/
def get_last_status (s : BiosState) : Int := s.last_status

/-! ## Claim-side definitions and sample states -/

/-- Claim-side notion (from the spec wording): a string with no leading
or trailing blanks or tabs is its own trim. -/
def spec_trim (s : Str) : Str :=
  ((s.dropWhile (fun c => c = ' ' || c = '\t')).reverse.dropWhile
    (fun c => c = ' ' || c = '\t')).reverse

/-- Claim-side notion (from the spec wording): lines joined by single
newline separators, with no trailing newline. -/
def spec_newline_joined (lines : List Str) : Str := List.intercalate ['\n'] lines

/-- Claim-side per-entry line for the listing (from the claim wording):
the entry formatted as a directory or plain-file marker plus the name
according to the per-entry stat query, the bare name when that query
fails, each line terminated by a newline. -/
def c9_line (fs : FS) (path name : Str) : Str :=
  (match fs.stat ((if path.getLast? = some '/' then path else path ++ ['/']) ++ name) with
    | some true => "d ".data ++ name
    | some false => "- ".data ++ name
    | none => name) ++ ['\n']

/-- An empty sample filesystem. -/
def fs0 : FS := { files := [], dirs := [] }

/-- A sample filesystem holding one file named f with content hi. -/
def fsF : FS := { files := [("f".data, "hi".data)], dirs := [] }

/-- A sample filesystem whose root directory lists one entry a, backed
by an empty file /a. -/
def fsRoot : FS := { files := [("/a".data, [])], dirs := [("/".data, ["a".data])] }

/-! ## Helper lemmas -/

theorem strFind_eq_none {s : Str} {c : Char} (h : c ∉ s) : strFind s c = none := by
  induction s with
  | nil => rfl
  | cons a rest ih =>
    rw [List.mem_cons, not_or] at h
    have hne : ¬ (a = c) := fun hh => h.1 hh.symm
    simp [strFind, hne, ih h.2]

theorem strFind_append_self {v : Str} {c : Char} (h : c ∉ v) (r : Str) :
    strFind (v ++ c :: r) c = some v.length := by
  induction v with
  | nil => simp [strFind]
  | cons a rest ih =>
    rw [List.mem_cons, not_or] at h
    have hne : ¬ (a = c) := fun hh => h.1 hh.symm
    simp [strFind, hne, ih h.2]

theorem split_verb_append {v : Str} (h : ' ' ∉ v) (r : Str) :
    commands.split_verb (v ++ ' ' :: r) = (v, r) := by
  have htake : (v ++ ' ' :: r).take v.length = v := List.take_left v (' ' :: r)
  have hdrop : (v ++ ' ' :: r).drop (v.length + 1) = r := by
    simp
  simp [commands.split_verb, strFind_append_self h r, htake, hdrop]

theorem foldl_append_eq_flatten {α : Type _} (f : α → Str) :
    ∀ (l : List α) (acc : Str), l.foldl (fun a x => a ++ f x) acc = acc ++ (l.map f).flatten
  | [], acc => by simp
  | x :: rest, acc => by
    simp [List.foldl, foldl_append_eq_flatten f rest (acc ++ f x), List.append_assoc]

theorem registry_cases (key : Str) :
    lookupA commands.command_registry key = none ∨
    lookupA commands.command_registry key = some commands.ls ∨
    lookupA commands.command_registry key = some commands.cat ∨
    lookupA commands.command_registry key = some commands.echo ∨
    lookupA commands.command_registry key = some commands.rm := by
  by_cases h1 : "ls".data = key
  · subst h1; right; left; rfl
  by_cases h2 : "cat".data = key
  · subst h2; right; right; left; rfl
  by_cases h3 : "echo".data = key
  · subst h3; right; right; right; left; rfl
  by_cases h4 : "rm".data = key
  · subst h4; right; right; right; right; rfl
  · left
    simp only [String.data] at h1 h2 h3 h4
    simp [commands.command_registry, lookupA, h1, h2, h3, h4]

theorem cat_code {args : Str} {fs : FS} {r : CommandResult} {fs2 : FS}
    (h : commands.cat args fs = some (r, fs2)) : r.code = 0 ∨ r.code = -1 := by
  simp only [commands.cat] at h
  split at h
  · simp only [Option.some.injEq, Prod.mk.injEq] at h
    exact Or.inr (by rw [← h.1])
  · split at h
    · simp only [Option.some.injEq, Prod.mk.injEq] at h
      exact Or.inr (by rw [← h.1])
    · simp only [Option.some.injEq, Prod.mk.injEq] at h
      exact Or.inl (by rw [← h.1])

theorem rm_code {args : Str} {fs : FS} {r : CommandResult} {fs2 : FS}
    (h : commands.rm args fs = some (r, fs2)) : r.code = 0 ∨ r.code = -1 := by
  simp only [commands.rm] at h
  split at h
  · simp only [Option.some.injEq, Prod.mk.injEq] at h
    exact Or.inr (by rw [← h.1])
  · split at h
    · simp only [Option.some.injEq, Prod.mk.injEq] at h
      exact Or.inl (by rw [← h.1])
    · simp only [Option.some.injEq, Prod.mk.injEq] at h
      exact Or.inr (by rw [← h.1])

theorem ls_code {args : Str} {fs : FS} {r : CommandResult} {fs2 : FS}
    (h : commands.ls args fs = some (r, fs2)) : r.code = 0 ∨ r.code = -1 := by
  simp only [commands.ls] at h
  split at h
  · simp only [Option.some.injEq, Prod.mk.injEq] at h
    exact Or.inr (by rw [← h.1])
  · simp only [Option.some.injEq, Prod.mk.injEq] at h
    exact Or.inl (by rw [← h.1])

theorem echo_code {args : Str} {fs : FS} {r : CommandResult} {fs2 : FS}
    (h : commands.echo args fs = some (r, fs2)) : r.code = 0 ∨ r.code = -1 := by
  simp only [commands.echo] at h
  split at h
  · split at h
    · exact absurd h (by simp)
    · split at h
      · simp only [Option.some.injEq, Prod.mk.injEq] at h
        exact Or.inr (by rw [← h.1])
      · simp only [Option.some.injEq, Prod.mk.injEq] at h
        exact Or.inl (by rw [← h.1])
  · simp only [Option.some.injEq, Prod.mk.injEq] at h
    exact Or.inl (by rw [← h.1])

theorem execute_command_code {command : Str} {fs : FS} {r : CommandResult} {fs2 : FS}
    (h : commands.execute_command command fs = some (r, fs2)) : r.code = 0 ∨ r.code = -1 := by
  unfold commands.execute_command at h
  rcases registry_cases (commands.split_verb command).1 with hc | hc | hc | hc | hc <;>
    rw [hc] at h
  · simp only [Option.some.injEq, Prod.mk.injEq] at h
    exact Or.inr (by rw [← h.1])
  · exact ls_code h
  · exact cat_code h
  · exact echo_code h
  · exact rm_code h

theorem echo_no_redirect (args : Str) (fs : FS) (h : '>' ∉ args) :
    commands.echo args fs = some ({ code := 0, output := args }, fs) := by
  unfold commands.echo
  rw [strFind_eq_none h]

theorem execute_echo_no_redirect (args : Str) (fs : FS) (h : '>' ∉ args) :
    commands.execute_command ("echo".data ++ ' ' :: args) fs =
      some ({ code := 0, output := args }, fs) := by
  unfold commands.execute_command
  rw [split_verb_append (by decide) args]
  have hl : lookupA commands.command_registry "echo".data = some commands.echo := rfl
  simp only [hl]
  exact echo_no_redirect args fs h

/-! ## Claims -/

/-- Claim C1: a command line whose verb, the text before the first
space, is none of the registered verbs ls, cat, echo and rm reaches no
handler: execute_command returns code -1 with output Unknown command
and the filesystem it returns is the unchanged input filesystem. -/
theorem C1_unknown_command (command : Str) (fs : FS)
    (h : (commands.split_verb command).1 ∉
      ["ls".data, "cat".data, "echo".data, "rm".data]) :
    commands.execute_command command fs =
      some ({ code := -1, output := "Unknown command".data }, fs) := by
  simp only [List.mem_cons, List.not_mem_nil, or_false, not_or] at h
  obtain ⟨n1, n2, n3, n4⟩ := h
  unfold commands.execute_command
  have hl : lookupA commands.command_registry (commands.split_verb command).1 = none := by
    simp [commands.command_registry, lookupA, Ne.symm n1, Ne.symm n2, Ne.symm n3, Ne.symm n4]
  rw [hl]

/-- Witness for C1 at the unregistered verb foo over the empty
filesystem. -/
theorem C1_unknown_command_witness :
    commands.execute_command "foo bar".data fs0 =
      some ({ code := -1, output := "Unknown command".data }, fs0) :=
  C1_unknown_command "foo bar".data fs0 (by decide)

/-- Counterexample for C4: as stated the claim is false.  On the
command line echo-space-space-hi the dispatcher passes the handler the
remainder after the first space verbatim, which still carries a leading
space, so it is not a trimmed string; the echo handler observably
returns that untrimmed argument. -/
theorem C4_counterexample :
    (commands.split_verb "echo  hi".data).2 ≠
      spec_trim (commands.split_verb "echo  hi".data).2
    ∧ commands.execute_command "echo  hi".data fs0 =
        some ({ code := 0, output := ' ' :: "hi".data }, fs0) := by
  constructor
  · decide
  · rfl

/-- Claim C4 as amended: for every command line made of a space-free
verb, a space and an arbitrary remainder (redirection forms included),
the argument string passed by the dispatcher to the matched handler is
that remainder verbatim, with no trimming applied; on a
redirection-free remainder the untrimmed remainder is additionally
observable as the echo handler's output. -/
theorem C4_untrimmed_argument (verb rest : Str) (fs : FS) (hv : ' ' ∉ verb) :
    commands.split_verb (verb ++ ' ' :: rest) = (verb, rest)
    ∧ ('>' ∉ rest →
        commands.execute_command ("echo".data ++ ' ' :: rest) fs =
          some ({ code := 0, output := rest }, fs)) :=
  ⟨split_verb_append hv rest, fun hr => execute_echo_no_redirect rest fs hr⟩

/-- Witness for C4 at the verb echo and the redirection-form remainder
space-hi-redirect-f, which the dispatcher passes through verbatim,
leading space included. -/
theorem C4_untrimmed_argument_witness :
    commands.split_verb ("echo".data ++ ' ' :: " hi > f".data) =
      ("echo".data, " hi > f".data)
    ∧ ('>' ∉ " hi > f".data →
        commands.execute_command ("echo".data ++ ' ' :: " hi > f".data) fs0 =
          some ({ code := 0, output := " hi > f".data }, fs0)) :=
  C4_untrimmed_argument "echo".data " hi > f".data fs0 (by decide)

/-- Claim C5: on an argument with no redirection character the echo
handler returns code 0 with the argument unchanged and the returned
filesystem is the unchanged input filesystem; in particular the command
line echo just text dispatches to that result. -/
theorem C5_echo_pure (args : Str) (fs : FS) (h : '>' ∉ args) :
    commands.echo args fs = some ({ code := 0, output := args }, fs)
    ∧ commands.execute_command "echo just text".data fs =
        some ({ code := 0, output := "just text".data }, fs) :=
  ⟨echo_no_redirect args fs h, rfl⟩

/-- Witness for C5 at the argument just text over the empty filesystem. -/
theorem C5_echo_pure_witness :
    commands.echo "just text".data fs0 =
      some ({ code := 0, output := "just text".data }, fs0)
    ∧ commands.execute_command "echo just text".data fs0 =
        some ({ code := 0, output := "just text".data }, fs0) :=
  C5_echo_pure "just text".data fs0 (by decide)

theorem ffno_eq_none_of_all_mem {s set : Str} (h : ∀ c ∈ s, c ∈ set) :
    find_first_not_of s set = none := by
  induction s with
  | nil => rfl
  | cons a rest ih =>
    have ha : a ∈ set := h a (List.mem_cons_self a rest)
    have hr : ∀ c ∈ rest, c ∈ set := fun c hc => h c (List.mem_cons_of_mem a hc)
    simp [find_first_not_of, ha, ih hr]

/-- Claim C10: the echo handler is not total on arguments containing
the redirection character.  Whenever the text after the first such
character consists only of blanks and tabs or is empty, the filename
left-trim computes an npos find_first_not_of and the following substr
raises std::out_of_range, so the handler returns no CommandResult
(modelled as none); in particular the command line echo hi followed by
a bare redirection character makes the whole dispatch throw. -/
theorem C10_echo_not_total :
    (∀ (args : Str) (fs : FS) (i : Nat), strFind args '>' = some i →
      (∀ c ∈ args.drop (i + 1), c ∈ commands.wsSet) →
      commands.echo args fs = none)
    ∧ ∀ fs : FS, commands.execute_command "echo hi >".data fs = none := by
  constructor
  · intro args fs i hfind hws
    simp only [commands.echo, hfind, ffno_eq_none_of_all_mem hws]
  · intro fs
    rfl

/-- Witness for C10 at the argument consisting of the bare redirection
character. -/
theorem C10_echo_not_total_witness :
    commands.echo ">".data fs0 = none
    ∧ commands.execute_command "echo hi >".data fs0 = none :=
  ⟨C10_echo_not_total.1 ">".data fs0 0 (by decide) (by decide),
   C10_echo_not_total.2 fs0⟩

/-- Claim C8: the rm handler returns the usage diagnostic with code -1
on an empty argument leaving the filesystem untouched, code 0 with
empty output when removal succeeds, and code -1 with the deletion
diagnostic when removal fails; deleting a file that does not exist
fails with that non-empty diagnostic. -/
theorem C8_rm_results (args : Str) (fs : FS) :
    commands.rm [] fs = some ({ code := -1, output := "Usage: rm <filename>".data }, fs)
    ∧ (∀ fs2, args ≠ [] → fs.removeFile args = some fs2 →
        commands.rm args fs = some ({ code := 0, output := [] }, fs2))
    ∧ (args ≠ [] → fs.removeFile args = none →
        commands.rm args fs = some ({ code := -1, output := "Failed to delete file".data }, fs))
    ∧ (args ≠ [] → lookupA fs.files args = none →
        ∃ r, commands.rm args fs = some (r, fs) ∧ r.code = -1 ∧ r.output ≠ []) := by
  refine ⟨rfl, ?_, ?_, ?_⟩
  · intro fs2 hne hrem
    simp [commands.rm, hne, hrem]
  · intro hne hrem
    simp [commands.rm, hne, hrem]
  · intro hne hlook
    have hrem : fs.removeFile args = none := by
      simp [FS.removeFile, hlook]
    refine ⟨{ code := -1, output := "Failed to delete file".data }, ?_, rfl, by decide⟩
    simp [commands.rm, hne, hrem]

/-- Witness for C8 at the missing file nope over the filesystem holding
only the file f. -/
theorem C8_rm_results_witness :
    commands.rm "nope".data fsF =
      some ({ code := -1, output := "Failed to delete file".data }, fsF) :=
  (C8_rm_results "nope".data fsF).2.2.1 (by decide) rfl

/-- Claim C3: over any filesystem in which the write succeeds (in the
host model the target path is not a directory; the subsequent read of a
written file always succeeds), dispatching echo payload redirected to
/tmp/f.txt and then cat /tmp/f.txt round-trips: the write right-trims
the content and left-trims the filename, the read applies no trimming,
and the final output is exactly payload. -/
theorem C3_echo_cat_roundtrip (fs : FS) (h : fs.isDirB "/tmp/f.txt".data = false) :
    ∃ fs2, commands.execute_command "echo payload > /tmp/f.txt".data fs =
        some ({ code := 0, output := [] }, fs2)
      ∧ commands.execute_command "cat /tmp/f.txt".data fs2 =
        some ({ code := 0, output := "payload".data }, fs2) := by
  have step1 : ∀ g : FS, commands.execute_command "echo payload > /tmp/f.txt".data g =
      (match g.writeFile "/tmp/f.txt".data "payload".data with
        | none => some ({ code := -1, output := "Failed to open file for writing".data }, g)
        | some fs2 => some ({ code := 0, output := [] }, fs2)) := fun g => rfl
  have step2 : ∀ g : FS, commands.execute_command "cat /tmp/f.txt".data g =
      (match g.readFile "/tmp/f.txt".data with
        | none => some ({ code := -1, output := "Failed to open file".data }, g)
        | some content => some ({ code := 0, output := content }, g)) := fun g => rfl
  refine ⟨{ fs with files := ("/tmp/f.txt".data, "payload".data) ::
      fs.files.filter (fun q => decide (q.1 ≠ "/tmp/f.txt".data)) }, ?_, ?_⟩
  · rw [step1]
    simp [FS.writeFile, h]
  · rw [step2]
    have hr : FS.readFile
        { fs with files := ("/tmp/f.txt".data, "payload".data) ::
          fs.files.filter (fun q => decide (q.1 ≠ "/tmp/f.txt".data)) }
        "/tmp/f.txt".data = some "payload".data := by
      simp [FS.readFile, lookupA]
    rw [hr]

/-- Witness for C3 over the empty filesystem. -/
theorem C3_echo_cat_roundtrip_witness :
    ∃ fs2, commands.execute_command "echo payload > /tmp/f.txt".data fs0 =
        some ({ code := 0, output := [] }, fs2)
      ∧ commands.execute_command "cat /tmp/f.txt".data fs2 =
        some ({ code := 0, output := "payload".data }, fs2) :=
  C3_echo_cat_roundtrip fs0 (by decide)

/-- Claim C2: the static last_status starts at 0, every execute call
(dispatch, unknown-command and empty-or-null-rejection paths alike)
leaves last_status equal to the code it returns, every accepted
execute_with_output call leaves last_status equal to the dispatched
result's code, rejected null or empty input leaves -1, and the pair of
calls execute on the empty command then execute echo hi leaves
last_status at 0, the code of the second call. -/
theorem C2_last_status_tracks :
    init_last_status = 0
    ∧ (∀ fs, get_last_status (BiosState.init fs) = 0)
    ∧ (∀ cmd s c s2, execute cmd s = some (c, s2) → get_last_status s2 = c)
    ∧ (∀ cmd ok s out r fs2, cmd ≠ [] →
        commands.execute_command cmd s.fs = some (r, fs2) →
        execute_with_output (some cmd) ok s = some out →
        get_last_status out.2.2 = r.code)
    ∧ (∀ ok s out, execute_with_output none ok s = some out →
        get_last_status out.2.2 = -1)
    ∧ (∀ ok s out, execute_with_output (some []) ok s = some out →
        get_last_status out.2.2 = -1)
    ∧ (∀ fs, ∃ s1 s2, execute (some []) (BiosState.init fs) = some (-1, s1)
        ∧ execute (some "echo hi".data) s1 = some (0, s2)
        ∧ get_last_status s2 = 0) := by
  refine ⟨rfl, fun fs => rfl, ?_, ?_, ?_, ?_, ?_⟩
  · intro cmd s c s2 h
    cases cmd with
    | none =>
      simp only [execute, Option.some.injEq, Prod.mk.injEq] at h
      rw [← h.2, ← h.1]
      rfl
    | some cmd =>
      simp only [execute] at h
      split at h
      · simp only [Option.some.injEq, Prod.mk.injEq] at h
        rw [← h.2, ← h.1]
        rfl
      · split at h
        · exact absurd h (by simp)
        · simp only [Option.some.injEq, Prod.mk.injEq] at h
          rw [← h.2, ← h.1]
          rfl
  · intro cmd ok s out r fs2 hne hd h
    simp only [execute_with_output] at h
    rw [if_neg hne, hd] at h
    simp only [Option.some.injEq] at h
    split at h
    · injection h with h2
      rw [← h2]
      rfl
    · split at h
      · injection h with h2
        rw [← h2]
        rfl
      · injection h with h2
        rw [← h2]
        rfl
  · intro ok s out h
    simp only [execute_with_output, Option.some.injEq] at h
    rw [← h]
    rfl
  · intro ok s out h
    simp only [execute_with_output, if_pos] at h
    simp only [Option.some.injEq] at h
    rw [← h]
    rfl
  · intro fs
    exact ⟨{ fs := fs, last_status := -1 }, { fs := fs, last_status := 0 },
      rfl, rfl, rfl⟩

/-- Witness for C2: the failing command rm x over the empty filesystem
records its own code -1. -/
theorem C2_last_status_tracks_witness :
    get_last_status { fs := fs0, last_status := -1 } = -1 :=
  C2_last_status_tracks.2.2.1 (some "rm x".data) (BiosState.init fs0) (-1)
    { fs := fs0, last_status := -1 } rfl

/-- Claim C7: every status code the core produces is 0 or -1: the code
of every CommandResult returned by a dispatch, the code returned by
execute together with the recorded last_status, the last_status left by
every execute_with_output call, and the startup value of last_status. -/
theorem C7_binary_status_codes :
    (∀ cmd fs r fs2, commands.execute_command cmd fs = some (r, fs2) →
      r.code = 0 ∨ r.code = -1)
    ∧ (∀ cmd s c s2, execute cmd s = some (c, s2) →
        (c = 0 ∨ c = -1) ∧ (get_last_status s2 = 0 ∨ get_last_status s2 = -1))
    ∧ (∀ cmd ok s out, execute_with_output cmd ok s = some out →
        get_last_status out.2.2 = 0 ∨ get_last_status out.2.2 = -1)
    ∧ init_last_status = 0 := by
  refine ⟨fun cmd fs r fs2 h => execute_command_code h, ?_, ?_, rfl⟩
  · intro cmd s c s2 h
    cases cmd with
    | none =>
      simp only [execute, Option.some.injEq, Prod.mk.injEq] at h
      exact ⟨Or.inr (by rw [← h.1]), Or.inr (by rw [← h.2]; rfl)⟩
    | some cmd =>
      simp only [execute] at h
      split at h
      · simp only [Option.some.injEq, Prod.mk.injEq] at h
        exact ⟨Or.inr (by rw [← h.1]), Or.inr (by rw [← h.2]; rfl)⟩
      · split at h
        · exact absurd h (by simp)
        · rename_i r fs2 heq
          simp only [Option.some.injEq, Prod.mk.injEq] at h
          rcases execute_command_code heq with h0 | h1
          · exact ⟨Or.inl (by rw [← h.1]; exact h0),
              Or.inl (by rw [← h.2]; exact h0)⟩
          · exact ⟨Or.inr (by rw [← h.1]; exact h1),
              Or.inr (by rw [← h.2]; exact h1)⟩
  · intro cmd ok s out h
    cases cmd with
    | none =>
      simp only [execute_with_output, Option.some.injEq] at h
      exact Or.inr (by rw [← h]; rfl)
    | some cmd =>
      by_cases he : cmd = []
      · subst he
        simp only [execute_with_output, if_pos] at h
        simp only [Option.some.injEq] at h
        exact Or.inr (by rw [← h]; rfl)
      · simp only [execute_with_output] at h
        rw [if_neg he] at h
        split at h
        · exact absurd h (by simp)
        · rename_i r fs2 heq
          have hc := execute_command_code heq
          split at h
          · injection h with h2
            rw [← h2]
            exact hc
          · split at h
            · injection h with h2
              rw [← h2]
              exact hc
            · injection h with h2
              rw [← h2]
              exact hc

/-- Witness for C7: the failing listing of the empty filesystem
produces code -1. -/
theorem C7_binary_status_codes_witness :
    ({ code := -1, output := "Failed to open directory: /".data } : CommandResult).code = 0
    ∨ ({ code := -1, output := "Failed to open directory: /".data } : CommandResult).code = -1 :=
  C7_binary_status_codes.1 "ls".data fs0
    { code := -1, output := "Failed to open directory: /".data } fs0 rfl

/-- Claim C6: for an accepted command (non-null out_len precondition
built into the model), when the dispatched output is non-empty and the
allocation succeeds, execute_with_output returns the output bytes
followed by exactly one terminating NUL, with out_len the byte length
of the output excluding the terminator; when the output is empty no
buffer is produced and out_len is 0, without this being an error: the
recorded last_status is still the dispatched command's code. -/
theorem C6_captured_buffer (cmd : Str) (s : BiosState) (r : CommandResult) (fs2 : FS)
    (hne : cmd ≠ []) (hd : commands.execute_command cmd s.fs = some (r, fs2)) :
    (r.output ≠ [] →
      ∃ buf, execute_with_output (some cmd) true s =
          some (some buf, r.output.length, { fs := fs2, last_status := r.code })
        ∧ buf.take r.output.length = r.output
        ∧ buf.drop r.output.length = [Char.ofNat 0])
    ∧ (r.output = [] →
        execute_with_output (some cmd) true s =
          some (none, 0, { fs := fs2, last_status := r.code })) := by
  have hred : execute_with_output (some cmd) true s =
      (if r.output = [] then
        some (none, 0, ({ fs := fs2, last_status := r.code } : BiosState))
      else
        some (some (r.output ++ [Char.ofNat 0]), r.output.length,
          ({ fs := fs2, last_status := r.code } : BiosState))) := by
    simp only [execute_with_output]
    rw [if_neg hne, hd]
    simp
  constructor
  · intro hno
    rw [hred, if_neg hno]
    exact ⟨r.output ++ [Char.ofNat 0], rfl,
      List.take_left r.output [Char.ofNat 0],
      List.drop_left r.output [Char.ofNat 0]⟩
  · intro hyes
    rw [hred, if_pos hyes]

/-- Witness for C6 at the command cat f over the filesystem holding the
file f with content hi. -/
theorem C6_captured_buffer_witness :
    ∃ buf, execute_with_output (some "cat f".data) true (BiosState.init fsF) =
        some (some buf, ("hi".data : Str).length, { fs := fsF, last_status := 0 })
      ∧ buf.take ("hi".data : Str).length = "hi".data
      ∧ buf.drop ("hi".data : Str).length = [Char.ofNat 0] :=
  (C6_captured_buffer "cat f".data (BiosState.init fsF)
    { code := 0, output := "hi".data } fsF (by decide) rfl).1 (by decide)

theorem ls_entry_line_eq_c9_line (fs : FS) (path name : Str) :
    commands.ls_entry_line fs path name = c9_line fs path name := by
  simp only [commands.ls_entry_line, c9_line]
  split <;> rfl

/-- Counterexample for C9: as stated the claim is false.  Listing the
root of a filesystem whose root holds the single file a yields the
line minus-space-a followed by a newline, which is not the
newline-joined (separator form) list of formatted entries: the code
terminates every entry with a newline instead of separating entries by
newlines, so a trailing newline remains. -/
theorem C9_counterexample :
    commands.ls [] fsRoot = some ({ code := 0, output := "- a\n".data }, fsRoot)
    ∧ "- a\n".data ≠ spec_newline_joined ["- a".data] := by
  constructor
  · rfl
  · decide

/-- Claim C9 as amended: the listing uses path / when its argument is
empty (it then behaves exactly as on the explicit argument /); when the
directory cannot be opened it returns -1 with the diagnostic naming the
path; otherwise it returns code 0 with output the concatenation of one
line per entry, each line the entry formatted as d-name or minus-name
according to the per-entry stat query, the bare name when that query
fails, and each line terminated by a newline (so the output ends in a
newline when the directory has entries). -/
theorem C9_listing (args : Str) (fs : FS) :
    commands.ls [] fs = commands.ls "/".data fs
    ∧ ∀ path, path = (if args = [] then "/".data else args) →
        (lookupA fs.dirs path = none →
          commands.ls args fs =
            some ({ code := -1, output := "Failed to open directory: ".data ++ path }, fs))
        ∧ ∀ entries, lookupA fs.dirs path = some entries →
            commands.ls args fs =
              some ({ code := 0, output := (entries.map (c9_line fs path)).flatten }, fs) := by
  refine ⟨rfl, ?_⟩
  intro path hp
  constructor
  · intro hnone
    simp only [commands.ls]
    rw [← hp, hnone]
  · intro entries hsome
    simp only [commands.ls]
    rw [← hp, hsome]
    have hfold := foldl_append_eq_flatten (commands.ls_entry_line fs path) entries []
    simp only [List.nil_append] at hfold
    change some (({ code := 0, output := entries.foldl (fun acc name => acc ++ commands.ls_entry_line fs path name) [] } : CommandResult), fs) = _
    rw [hfold]
    have hfun : commands.ls_entry_line fs path = c9_line fs path :=
      funext (fun n => ls_entry_line_eq_c9_line fs path n)
    rw [hfun]

/-- Witness for C9 over the filesystem whose root holds the single
file a. -/
theorem C9_listing_witness :
    commands.ls [] fsRoot =
      some ({ code := 0, output := (["a".data].map (c9_line fsRoot "/".data)).flatten }, fsRoot) :=
  ((C9_listing [] fsRoot).2 "/".data rfl).2 ["a".data] rfl
